import Mathlib

/-!
# Verification of `sc2/main.py` match orchestration

A shallow embedding of the `_play_game_ai` step loop and of the
`_host_game` / `_join_game` orchestrators from `sc2/main.py`.

The loop interacts with external collaborators (the engine `Client`, the
`Server`, and the bound AI object).  Each loop iteration reads a fresh
observation and the AI's unit sets, and the AI hook may succeed, overrun
its time budget, or raise.  We model one iteration's worth of collaborator
behaviour as a `StepInput` record, and the loop as a function from the
current counters (`iteration`, `run`, `num_wins`) and the iteration's
`StepInput` to an event trace (the externally visible calls the loop makes)
plus a step result: continue with new counters, return a value, or crash
with an uncaught exception.  Running the loop over a list of `StepInput`s
replays `_play_game_ai` against that collaborator behaviour.

Python floats `0.725 * (1/16)` are modelled as the exact rational
`29 / 640`; a game-time limit is `Option ℚ` where `none` stands for the
falsy configurations (`None`); a configured limit of `0` is falsy in
Python's `if game_time_limit and ...`, which the embedding reproduces.
-/

namespace SC2

/-- Match results, from `sc2/data.py`'s `Result` as used by `main.py`. -/
inductive Result
  | Victory
  | Defeat
  | Tie
  | Undecided
deriving DecidableEq, Repr

/-- Behaviour of the AI's `on_step` hook in one iteration: it may return
normally, run longer than any configured step time limit, or raise. -/
inductive AIAction
  | ok
  | runsLong
  | raises
deriving DecidableEq, Repr

/-- The configuration parameters of `_play_game_ai`. -/
structure Config where
  realtime : Bool
  step_time_limit : Option ℚ
  game_time_limit : Option ℚ
  reset : Bool
  num_runs : Nat
deriving DecidableEq, Repr

/-- One iteration's worth of collaborator behaviour: the observation's
`game_loop`, the value of `client._game_result` for this player at the
top-of-loop terminal check (`none` when the mapping is absent or empty,
i.e. falsy), whether `ai.units` / `ai.known_enemy_units` are empty after
`_prepare_step`, whether `ai.issue_events()` raises, the `on_step`
behaviour, and — for the non-realtime post-hook check — the value of
`client.in_game` and of `client._game_result` for this player at that
later point. -/
structure StepInput where
  game_loop : Nat
  res1 : Option Result
  units_empty : Bool
  enemies_empty : Bool
  events_raise : Bool
  action : AIAction
  in_game : Bool
  res2 : Option Result
deriving DecidableEq, Repr

/-- The mutable counters of `_play_game_ai`. -/
structure LoopState where
  iteration : Nat
  run : Nat
  num_wins : Nat
deriving DecidableEq, Repr

/-- Externally visible calls made by `_play_game_ai`, in order. -/
inductive Event
  | getGameData
  | getGameInfo
  | prepareStart
  | onStart
  | onReset (r : Option Result)
  | observe (gl : Nat)
  | prepareStep
  | prepareFirstStep
  | issueEvents
  | onStep (i : Nat)
  | timeoutLogged
  | errorLogged
  | onEnd (r : Result)
  | restartGame
  | clearGameResult
  | clientStep
deriving DecidableEq, Repr

/-- Result of one loop iteration: continue with new counters, `return`
a value of `num_wins`, or crash with an uncaught exception (the
`TypeError` from indexing an absent `client._game_result`). -/
inductive StepResult
  | cont (s : LoopState)
  | halt (num_wins : Nat)
  | crash
deriving DecidableEq, Repr

/-- The check `game_time_limit and (gs.game_loop * 0.725 * (1/16)) > game_time_limit`:
the limit must be truthy (present and nonzero) and the in-game time
`game_loop * 29/640` must exceed it. -/
def timeExceeded (gtl : Option ℚ) (gl : Nat) : Bool :=
  match gtl with
  | none => false
  | some l => decide (l ≠ 0) && decide ((gl : ℚ) * (29 / 640) > l)

/-- The truthiness test
`client._game_result or not ai.units or not ai.known_enemy_units`. -/
def terminalCheck (inp : StepInput) : Bool :=
  inp.res1.isSome || inp.units_empty || inp.enemies_empty

/-- The result-resolution block of `_play_game_ai`:
`res = Result.Defeat`, overwritten with `Victory` when the engine
reports `Victory` for this player, or, absent an engine report, when
no enemy units are known. -/
def resolveRes (res1 : Option Result) (enemies_empty : Bool) : Result :=
  match res1 with
  | some r => if r = Result.Victory then Result.Victory else Result.Defeat
  | none => if enemies_empty then Result.Victory else Result.Defeat

/-- `num_wins` is incremented exactly when the resolved result is set to
`Victory` in the resolution block. -/
def winFlag (r : Result) : Nat :=
  if r = Result.Victory then 1 else 0

/-- The tail of a non-realtime iteration, after the AI hook returned or
timed out: if `client.in_game` is false the loop calls
`ai.on_end(client._game_result[player_id])` and returns — indexing
`None` raises (`crash`) — otherwise it issues `client.step()`; in
either surviving case `iteration` is incremented at the loop's end.
In realtime mode none of this runs and `iteration` is incremented. -/
def afterHook (cfg : Config) (s : LoopState) (inp : StepInput) :
    List Event × StepResult :=
  if cfg.realtime then
    ([], StepResult.cont ⟨s.iteration + 1, s.run, s.num_wins⟩)
  else if inp.in_game then
    ([Event.clientStep], StepResult.cont ⟨s.iteration + 1, s.run, s.num_wins⟩)
  else
    match inp.res2 with
    | some r => ([Event.onEnd r], StepResult.halt s.num_wins)
    | none => ([], StepResult.crash)

/-- The `try` block around `ai.issue_events()` and `ai.on_step(iteration)`:
an exception from either hook is logged and ends the run with
`ai.on_end(Result.Defeat)`; in non-realtime mode with a configured
`step_time_limit`, an overrunning `on_step` raises `asyncio.TimeoutError`,
which is caught and logged as a warning, and the iteration continues. -/
def hookPhase (cfg : Config) (s : LoopState) (inp : StepInput) :
    List Event × StepResult :=
  if inp.events_raise then
    ([Event.issueEvents, Event.errorLogged, Event.onEnd Result.Defeat],
     StepResult.halt s.num_wins)
  else
    match inp.action with
    | AIAction.raises =>
        ([Event.issueEvents, Event.onStep s.iteration, Event.errorLogged,
          Event.onEnd Result.Defeat],
         StepResult.halt s.num_wins)
    | AIAction.ok =>
        ([Event.issueEvents, Event.onStep s.iteration] ++ (afterHook cfg s inp).1,
         (afterHook cfg s inp).2)
    | AIAction.runsLong =>
        if cfg.realtime ∨ cfg.step_time_limit = none then
          ([Event.issueEvents, Event.onStep s.iteration] ++ (afterHook cfg s inp).1,
           (afterHook cfg s inp).2)
        else
          ([Event.issueEvents, Event.onStep s.iteration, Event.timeoutLogged] ++
            (afterHook cfg s inp).1,
           (afterHook cfg s inp).2)

/-- One full iteration of the `while True` loop of `_play_game_ai`:
observation, game-time check, `_prepare_step`, terminal check with
result resolution and optional server-side reset, first-step hook,
AI hook phase, and the non-realtime post-hook tail. -/
def stepBody (cfg : Config) (s : LoopState) (inp : StepInput) :
    List Event × StepResult :=
  if timeExceeded cfg.game_time_limit inp.game_loop then
    ([Event.observe inp.game_loop, Event.onEnd Result.Tie],
     StepResult.halt s.num_wins)
  else if terminalCheck inp then
    if cfg.reset ∧ s.run + 1 < cfg.num_runs then
      ([Event.observe inp.game_loop, Event.prepareStep, Event.restartGame,
        Event.onReset (some (resolveRes inp.res1 inp.enemies_empty)),
        Event.clearGameResult],
       StepResult.cont
         ⟨0, s.run + 1,
          s.num_wins + winFlag (resolveRes inp.res1 inp.enemies_empty)⟩)
    else
      ([Event.observe inp.game_loop, Event.prepareStep,
        Event.onEnd (resolveRes inp.res1 inp.enemies_empty)],
       StepResult.halt
         (s.num_wins + winFlag (resolveRes inp.res1 inp.enemies_empty)))
  else
    ([Event.observe inp.game_loop, Event.prepareStep] ++
       (if s.iteration = 0 then [Event.prepareFirstStep] else []) ++
       (hookPhase cfg s inp).1,
     (hookPhase cfg s inp).2)

/-- Outcome of running the loop against a finite list of collaborator
behaviours: the loop returned a value, crashed, or consumed all the
supplied inputs and is still running with the given counters. -/
inductive Outcome
  | returned (num_wins : Nat)
  | crashed
  | running (s : LoopState)
deriving DecidableEq, Repr

/-- Run the `while True` loop of `_play_game_ai` against a list of
per-iteration collaborator behaviours, collecting the event trace. -/
def runLoop (cfg : Config) (s : LoopState) : List StepInput → List Event × Outcome
  | [] => ([], Outcome.running s)
  | inp :: rest =>
    match stepBody cfg s inp with
    | (evs, StepResult.cont s') =>
        ((evs ++ (runLoop cfg s' rest).1), (runLoop cfg s' rest).2)
    | (evs, StepResult.halt nw) => (evs, Outcome.returned nw)
    | (evs, StepResult.crash) => (evs, Outcome.crashed)

/-- The counters at entry to the loop: `iteration = 0`, `run = 0`,
`num_wins = 0`. -/
def initState : LoopState := ⟨0, 0, 0⟩

/-- `_play_game_ai` in full: `get_game_data`, `get_game_info`,
`_prepare_start`, `on_start()`, `on_reset(None)`, then the loop. -/
def playGameAI (cfg : Config) (inputs : List StepInput) : List Event × Outcome :=
  ([Event.getGameData, Event.getGameInfo, Event.prepareStart, Event.onStart,
    Event.onReset none] ++ (runLoop cfg initState inputs).1,
   (runLoop cfg initState inputs).2)

/-- Whether an event is the per-iteration observation fetch. -/
def Event.isObserve : Event → Bool
  | Event.observe _ => true
  | _ => false

/-- Number of loop iterations begun in a trace: each iteration fetches
exactly one observation. -/
def numIters (tr : List Event) : Nat :=
  (tr.filter Event.isObserve).length

/-- Whether an event is a call to the AI's `on_end` hook. -/
def Event.isOnEnd : Event → Bool
  | Event.onEnd _ => true
  | _ => false

/-- Number of `on_end` calls in a trace. -/
def numOnEnd (tr : List Event) : Nat :=
  (tr.filter Event.isOnEnd).length

/-- The spec's priority order for resolving a terminal result, stated from
the spec's words for comparison with the code's `resolveRes`: if an
engine-reported result exists, map `Victory` to `Victory` and anything
else to `Defeat`; else if no enemy units are visible, `Victory`;
otherwise `Defeat`. -/
def resolveResultSpec (engine : Option Result) (enemies_empty : Bool) : Result :=
  match engine with
  | some r => if r = Result.Victory then Result.Victory else Result.Defeat
  | none => if enemies_empty then Result.Victory else Result.Defeat

/-- Win contribution of one iteration: 1 exactly when the iteration
resolves the episode through the terminal-detection branch (not the
game-time budget) with spec-priority result `Victory`. -/
def winIncr (cfg : Config) (inp : StepInput) : Nat :=
  if timeExceeded cfg.game_time_limit inp.game_loop = false ∧
      terminalCheck inp = true ∧
      resolveResultSpec inp.res1 inp.enemies_empty = Result.Victory
  then 1 else 0

/-- Exceptions that can escape the play/save/leave/quit sequence of
`_host_game` and `_join_game`: `ConnectionAlreadyClosed`, or any other
exception (such as the `TypeError` of C10). -/
inductive Exc
  | connClosed
  | other
deriving DecidableEq, Repr

/-- Behaviour of the collaborator calls inside the `try` block of
`_host_game` / `_join_game`: the outcome of `_play_game` (a value of
type `α`, covering both the `Result` of a human game and the `num_wins`
integer of an AI game), of `client.save_replay`, `client.leave` and
`client.quit`; each may raise. -/
structure OrchEnv (α : Type) where
  play : Except Exc α
  save : Except Exc Unit
  leave : Except Exc Unit
  quit : Except Exc Unit

/-- The `try` block of `_host_game` / `_join_game`:
`result = await _play_game(...)`, then `save_replay` when a replay path
is configured, then `leave()`, then `quit()`, returning `result`. -/
def tryBlock {α : Type} (saveReplayAs : Bool) (env : OrchEnv α) :
    Except Exc α := do
  let r ← env.play
  if saveReplayAs then
    let _ ← env.save
  let _ ← env.leave
  let _ ← env.quit
  pure r

/-- The `except ConnectionAlreadyClosed` handler: that exception is
logged and turned into the return value `None`; any other exception
propagates. -/
def catchConn {α : Type} (x : Except Exc α) : Except Exc (Option α) :=
  match x with
  | Except.ok a => Except.ok (some a)
  | Except.error Exc.connClosed => Except.ok none
  | Except.error e => Except.error e

/-- `_host_game` from the point where the game is set up: play, optional
replay save, leave, quit, with `ConnectionAlreadyClosed` mapped to a
`None` return. -/
def hostGame {α : Type} (saveReplayAs : Bool) (env : OrchEnv α) :
    Except Exc (Option α) :=
  catchConn (tryBlock saveReplayAs env)

/-- `_join_game` from the point where the client is created: identical
play/save/leave/quit sequence under the same
`except ConnectionAlreadyClosed` handler. -/
def joinGame {α : Type} (saveReplayAs : Bool) (env : OrchEnv α) :
    Except Exc (Option α) :=
  catchConn (tryBlock saveReplayAs env)


theorem resolveRes_eq_spec (engine : Option Result) (enemies_empty : Bool) :
    resolveRes engine enemies_empty = resolveResultSpec engine enemies_empty := rfl

/-- Claim C1: whenever the configured game-time limit is exceeded at the
top of an iteration, `_play_game_ai` immediately calls `on_end(Result.Tie)`
and returns the current `num_wins`, regardless of the engine-reported
result, unit counts or AI behaviour in that iteration's input; neither
`_prepare_step` nor `on_step` runs that iteration. -/
theorem time_limit_yields_tie (cfg : Config) (s : LoopState) (inp : StepInput)
    (h : timeExceeded cfg.game_time_limit inp.game_loop = true) :
    stepBody cfg s inp =
      ([Event.observe inp.game_loop, Event.onEnd Result.Tie],
       StepResult.halt s.num_wins) ∧
    (∀ i, Event.onStep i ∉ (stepBody cfg s inp).1) ∧
    Event.prepareStep ∉ (stepBody cfg s inp).1 := by
  refine ⟨by simp [stepBody, h], ?_, ?_⟩ <;> simp [stepBody, h]

/-- Witness for C1: a concrete exceeded limit (limit 60 in-game seconds,
`game_loop = 1400`, so `1400 * 29/640 = 63.4375 > 60`). -/
theorem time_limit_yields_tie_witness :
    stepBody ⟨false, none, some 60, false, 1⟩ initState
        ⟨1400, some Result.Victory, false, false, false, AIAction.ok, true, none⟩ =
      ([Event.observe 1400, Event.onEnd Result.Tie], StepResult.halt 0) :=
  (time_limit_yields_tie ⟨false, none, some 60, false, 1⟩ initState
     ⟨1400, some Result.Victory, false, false, false, AIAction.ok, true, none⟩
     (by norm_num [timeExceeded])).1

/-- Claim C2: whenever the terminal condition fires (and the game-time
limit did not), the resolved result — whether passed to `on_reset` in the
reset branch or to `on_end` in the returning branch — follows the spec's
priority order `resolveResultSpec`: engine result first (`Victory`
mapped to `Victory`, anything else to `Defeat`), else `Victory` when no
enemy units are visible, else `Defeat`. -/
theorem terminal_result_priority (cfg : Config) (s : LoopState) (inp : StepInput)
    (hT : timeExceeded cfg.game_time_limit inp.game_loop = false)
    (hterm : terminalCheck inp = true) :
    (cfg.reset ∧ s.run + 1 < cfg.num_runs →
      stepBody cfg s inp =
        ([Event.observe inp.game_loop, Event.prepareStep, Event.restartGame,
          Event.onReset (some (resolveResultSpec inp.res1 inp.enemies_empty)),
          Event.clearGameResult],
         StepResult.cont
           ⟨0, s.run + 1,
            s.num_wins + winFlag (resolveResultSpec inp.res1 inp.enemies_empty)⟩)) ∧
    (¬(cfg.reset ∧ s.run + 1 < cfg.num_runs) →
      stepBody cfg s inp =
        ([Event.observe inp.game_loop, Event.prepareStep,
          Event.onEnd (resolveResultSpec inp.res1 inp.enemies_empty)],
         StepResult.halt
           (s.num_wins + winFlag (resolveResultSpec inp.res1 inp.enemies_empty)))) := by
  constructor <;> intro hr <;>
    simp [stepBody, hT, hterm, hr, resolveRes_eq_spec]

/-- Witness for C2: with no engine result and no visible enemies, the
episode ends with `on_end(Result.Victory)` and the win is counted. -/
theorem terminal_result_priority_witness :
    stepBody ⟨false, none, none, false, 1⟩ initState
        ⟨10, none, false, true, false, AIAction.ok, true, none⟩ =
      ([Event.observe 10, Event.prepareStep, Event.onEnd Result.Victory],
       StepResult.halt 1) :=
  (terminal_result_priority ⟨false, none, none, false, 1⟩ initState
      ⟨10, none, false, true, false, AIAction.ok, true, none⟩ rfl rfl).2
    (by decide)

/-- Counterexample to claim C3 as stated: a Tie produced by the game-time
budget does not take the reset branch.  With reset mode on and
`run + 1 < num_runs`, an iteration whose game-time limit is exceeded
still returns to the caller at once: no `restart_game`, no `on_reset`,
and the step result is a `halt`, not a continuation. -/
theorem tie_bypasses_reset_cex :
    stepBody ⟨false, none, some 60, true, 3⟩ initState
        ⟨1400, none, false, false, false, AIAction.ok, true, none⟩ =
      ([Event.observe 1400, Event.onEnd Result.Tie], StepResult.halt 0) ∧
    Event.restartGame ∉
      (stepBody ⟨false, none, some 60, true, 3⟩ initState
        ⟨1400, none, false, false, false, AIAction.ok, true, none⟩).1 ∧
    Event.onReset (some Result.Tie) ∉
      (stepBody ⟨false, none, some 60, true, 3⟩ initState
        ⟨1400, none, false, false, false, AIAction.ok, true, none⟩).1 ∧
    Event.clearGameResult ∉
      (stepBody ⟨false, none, some 60, true, 3⟩ initState
        ⟨1400, none, false, false, false, AIAction.ok, true, none⟩).1 := by
  have h : timeExceeded (some 60) 1400 = true := by norm_num [timeExceeded]
  refine ⟨by simp [stepBody, h, initState], ?_, ?_, ?_⟩ <;> simp [stepBody, h]

/-- Claim C3 as amended: for every episode that reaches a terminal result
through the terminal-detection branch (engine-reported result, zero own
units, or zero visible enemy units) — but not through the game-time
budget, whose Tie always returns to the caller immediately — if reset
mode is enabled and the completed-episode count `run + 1` is strictly
below `num_runs`, the loop calls `server.restart_game()`, calls
`on_reset` with the just-finished result, clears the engine-reported
result, resets `iteration` to 0, and continues with a new episode
instead of returning. -/
theorem reset_on_terminal (cfg : Config) (s : LoopState) (inp : StepInput)
    (hT : timeExceeded cfg.game_time_limit inp.game_loop = false)
    (hterm : terminalCheck inp = true)
    (hres : cfg.reset = true) (hrun : s.run + 1 < cfg.num_runs) :
    stepBody cfg s inp =
      ([Event.observe inp.game_loop, Event.prepareStep, Event.restartGame,
        Event.onReset (some (resolveRes inp.res1 inp.enemies_empty)),
        Event.clearGameResult],
       StepResult.cont
         ⟨0, s.run + 1,
          s.num_wins + winFlag (resolveRes inp.res1 inp.enemies_empty)⟩) := by
  simp [stepBody, hT, hterm, hres, hrun]

/-- Witness for the amended C3: engine reports a Defeat in episode 1 of 3
under reset mode; the loop restarts, resets `iteration` to 0 and keeps
going. -/
theorem reset_on_terminal_witness :
    stepBody ⟨false, none, none, true, 3⟩ ⟨17, 0, 0⟩
        ⟨10, some Result.Defeat, false, false, false, AIAction.ok, true, none⟩ =
      ([Event.observe 10, Event.prepareStep, Event.restartGame,
        Event.onReset (some Result.Defeat), Event.clearGameResult],
       StepResult.cont ⟨0, 1, 0⟩) :=
  reset_on_terminal ⟨false, none, none, true, 3⟩ ⟨17, 0, 0⟩
    ⟨10, some Result.Defeat, false, false, false, AIAction.ok, true, none⟩
    rfl rfl rfl (by decide)

/-- Any continuation produced by the hook phase carries the counters
unchanged except `iteration`, which is incremented by 1. -/
lemma hookPhase_cont (cfg : Config) (s : LoopState) (inp : StepInput)
    (s' : LoopState) (h : (hookPhase cfg s inp).2 = StepResult.cont s') :
    s' = ⟨s.iteration + 1, s.run, s.num_wins⟩ := by
  rcases cfg with ⟨rt, stl, gtl, rs, nr⟩
  rcases inp with ⟨gl, r1, ue, ee, er, act, ing, r2⟩
  cases rt <;> cases er <;> cases act <;> cases ing <;>
    rcases stl with _ | l <;> rcases r2 with _ | r2 <;>
    simp_all [hookPhase, afterHook]

/-- Any `return` from the hook phase returns the unchanged `num_wins`. -/
lemma hookPhase_halt (cfg : Config) (s : LoopState) (inp : StepInput)
    (nw : Nat) (h : (hookPhase cfg s inp).2 = StepResult.halt nw) :
    nw = s.num_wins := by
  rcases cfg with ⟨rt, stl, gtl, rs, nr⟩
  rcases inp with ⟨gl, r1, ue, ee, er, act, ing, r2⟩
  cases rt <;> cases er <;> cases act <;> cases ing <;>
    rcases stl with _ | l <;> rcases r2 with _ | r2 <;>
    simp_all [hookPhase, afterHook]

/-- Counterexample to claim C5 as stated: an iteration whose `on_step`
overruns `step_time_limit` can still terminate the episode, because the
client-left check runs afterwards in the same iteration.  Here the hook
times out (the timeout is logged), the client is no longer in game, and
the loop calls `on_end` and returns without issuing `client.step()` or
incrementing `iteration`. -/
theorem timeout_iteration_can_terminate_cex :
    stepBody ⟨false, some 1, none, false, 1⟩ initState
        ⟨5, none, false, false, false, AIAction.runsLong, false, some Result.Defeat⟩ =
      ([Event.observe 5, Event.prepareStep, Event.prepareFirstStep,
        Event.issueEvents, Event.onStep 0, Event.timeoutLogged,
        Event.onEnd Result.Defeat],
       StepResult.halt 0) ∧
    Event.timeoutLogged ∈
      (stepBody ⟨false, some 1, none, false, 1⟩ initState
        ⟨5, none, false, false, false, AIAction.runsLong, false, some Result.Defeat⟩).1 ∧
    Event.clientStep ∉
      (stepBody ⟨false, some 1, none, false, 1⟩ initState
        ⟨5, none, false, false, false, AIAction.runsLong, false, some Result.Defeat⟩).1 ∧
    (stepBody ⟨false, some 1, none, false, 1⟩ initState
        ⟨5, none, false, false, false, AIAction.runsLong, false, some Result.Defeat⟩).2 =
      StepResult.halt 0 := by
  refine ⟨rfl, ?_, ?_, ?_⟩ <;>
    simp [stepBody, hookPhase, afterHook, terminalCheck, timeExceeded, initState]

/-- Claim C5 as amended: in non-realtime mode with a configured
`step_time_limit`, an iteration whose `on_step` hook overruns the limit
has the timeout caught and logged, and — provided the client is still in
game — the episode does not terminate, `client.step()` is still issued,
and `iteration` is incremented by exactly 1 with `run` and `num_wins`
unchanged.  The timeout itself never terminates the episode; only the
independent client-left check can. -/
theorem timeout_is_nonfatal (cfg : Config) (s : LoopState) (inp : StepInput)
    (hrt : cfg.realtime = false) (hstl : cfg.step_time_limit.isSome = true)
    (hT : timeExceeded cfg.game_time_limit inp.game_loop = false)
    (hterm : terminalCheck inp = false)
    (hev : inp.events_raise = false) (hact : inp.action = AIAction.runsLong)
    (hin : inp.in_game = true) :
    stepBody cfg s inp =
      ([Event.observe inp.game_loop, Event.prepareStep] ++
         (if s.iteration = 0 then [Event.prepareFirstStep] else []) ++
         [Event.issueEvents, Event.onStep s.iteration, Event.timeoutLogged,
          Event.clientStep],
       StepResult.cont ⟨s.iteration + 1, s.run, s.num_wins⟩) := by
  obtain ⟨l, hl⟩ := Option.isSome_iff_exists.mp hstl
  simp [stepBody, hookPhase, afterHook, hrt, hl, hT, hterm, hev, hact, hin]

/-- Witness for the amended C5: a concrete timed-out step with the client
still in game continues the episode with `iteration` 3 → 4. -/
theorem timeout_is_nonfatal_witness :
    stepBody ⟨false, some 1, none, false, 1⟩ ⟨3, 0, 0⟩
        ⟨5, none, false, false, false, AIAction.runsLong, true, none⟩ =
      ([Event.observe 5, Event.prepareStep, Event.issueEvents, Event.onStep 3,
        Event.timeoutLogged, Event.clientStep],
       StepResult.cont ⟨4, 0, 0⟩) := by
  have := timeout_is_nonfatal ⟨false, some 1, none, false, 1⟩ ⟨3, 0, 0⟩
    ⟨5, none, false, false, false, AIAction.runsLong, true, none⟩
    rfl rfl rfl rfl rfl rfl rfl
  simpa using this

/-- Claim C6: an exception from `issue_events` or `on_step` (other than a
step timeout) is logged, `on_end` is called exactly once — with result
`Defeat` — and the loop returns the current `num_wins` immediately: the
run's trace contains no further iteration after the faulting one, and no
exception escapes (`returned`, not `crashed`). -/
theorem ai_fault_defeats (cfg : Config) (s : LoopState) (inp : StepInput)
    (rest : List StepInput)
    (hT : timeExceeded cfg.game_time_limit inp.game_loop = false)
    (hterm : terminalCheck inp = false)
    (hraise : inp.events_raise = true ∨ inp.action = AIAction.raises) :
    runLoop cfg s (inp :: rest) =
      ((stepBody cfg s inp).1, Outcome.returned s.num_wins) ∧
    numOnEnd (stepBody cfg s inp).1 = 1 ∧
    Event.onEnd Result.Defeat ∈ (stepBody cfg s inp).1 ∧
    Event.errorLogged ∈ (stepBody cfg s inp).1 ∧
    numIters (stepBody cfg s inp).1 = 1 := by
  have hhook : hookPhase cfg s inp =
      ([Event.issueEvents, Event.errorLogged, Event.onEnd Result.Defeat],
       StepResult.halt s.num_wins) ∨
      hookPhase cfg s inp =
      ([Event.issueEvents, Event.onStep s.iteration, Event.errorLogged,
        Event.onEnd Result.Defeat],
       StepResult.halt s.num_wins) := by
    rcases hraise with h | h
    · left; simp [hookPhase, h]
    · cases hev : inp.events_raise
      · right; simp [hookPhase, h, hev]
      · left; simp [hookPhase, hev]
  rcases hhook with h | h <;>
    have hstep : stepBody cfg s inp =
      ([Event.observe inp.game_loop, Event.prepareStep] ++
         (if s.iteration = 0 then [Event.prepareFirstStep] else []) ++
         (hookPhase cfg s inp).1,
       StepResult.halt s.num_wins) := by simp [stepBody, hT, hterm, h]
  all_goals refine ⟨?_, ?_, ?_, ?_, ?_⟩ <;>
    simp only [hstep, h, runLoop, numOnEnd, numIters, List.filter_append] <;>
    split <;>
    simp [Event.isOnEnd, Event.isObserve]

/-- Witness for C6: a fault on iteration 5 ends the run at once with
`on_end(Defeat)` called exactly once and no further iterations. -/
theorem ai_fault_defeats_witness :
    runLoop ⟨false, none, none, false, 1⟩ ⟨5, 0, 0⟩
        (⟨9, none, false, false, false, AIAction.raises, true, none⟩ ::
          [⟨10, none, false, false, false, AIAction.ok, true, none⟩]) =
      ((stepBody ⟨false, none, none, false, 1⟩ ⟨5, 0, 0⟩
          ⟨9, none, false, false, false, AIAction.raises, true, none⟩).1,
       Outcome.returned 0) ∧
    numOnEnd (stepBody ⟨false, none, none, false, 1⟩ ⟨5, 0, 0⟩
        ⟨9, none, false, false, false, AIAction.raises, true, none⟩).1 = 1 := by
  have := ai_fault_defeats ⟨false, none, none, false, 1⟩ ⟨5, 0, 0⟩
    ⟨9, none, false, false, false, AIAction.raises, true, none⟩
    [⟨10, none, false, false, false, AIAction.ok, true, none⟩]
    rfl rfl (Or.inr rfl)
  exact ⟨this.1, this.2.1⟩

/-- Claim C7: `iteration` is 0 at loop entry; every continuing step
either comes from the reset branch — `iteration` back to 0, `run`
incremented by exactly 1, `on_reset` called with the finished result —
or is an ordinary step with `iteration` incremented by exactly 1 and
`run`, `num_wins` unchanged; and `run` and `num_wins` never decrease. -/
theorem counters_invariant :
    initState.iteration = 0 ∧
    ∀ (cfg : Config) (s : LoopState) (inp : StepInput) (tr : List Event)
      (s' : LoopState), stepBody cfg s inp = (tr, StepResult.cont s') →
      s.num_wins ≤ s'.num_wins ∧ s.run ≤ s'.run ∧
      ((s'.iteration = 0 ∧ s'.run = s.run + 1 ∧
          Event.onReset (some (resolveRes inp.res1 inp.enemies_empty)) ∈ tr) ∨
        (s'.iteration = s.iteration + 1 ∧ s'.run = s.run ∧
          s'.num_wins = s.num_wins)) := by
  refine ⟨rfl, ?_⟩
  intro cfg s inp tr s' h
  by_cases h1 : timeExceeded cfg.game_time_limit inp.game_loop
  · simp [stepBody, h1] at h
  · by_cases h2 : terminalCheck inp
    · by_cases h3 : cfg.reset ∧ s.run + 1 < cfg.num_runs
      · simp [stepBody, h1, h2, h3] at h
        obtain ⟨htr, hs⟩ := h
        subst htr
        refine ⟨?_, ?_, Or.inl ⟨?_, ?_, ?_⟩⟩ <;>
          simp [← hs, winFlag]
      · simp [stepBody, h1, h2, h3] at h
    · have h' : (hookPhase cfg s inp).2 = StepResult.cont s' := by
        simp [stepBody, h1, h2] at h
        exact h.2
      have := hookPhase_cont cfg s inp s' h'
      subst this
      simp

/-- Witness for C7: a concrete continuing reset step (run 0 → 1,
iteration 17 → 0) satisfies the invariant. -/
theorem counters_invariant_witness :
    (0 : Nat) ≤ 0 ∧ (0 : Nat) ≤ 1 ∧
      (((0 : Nat) = 0 ∧ (1 : Nat) = 0 + 1 ∧
          Event.onReset (some (resolveRes (some Result.Defeat) false)) ∈
            [Event.observe 10, Event.prepareStep, Event.restartGame,
              Event.onReset (some Result.Defeat), Event.clearGameResult]) ∨
        ((0 : Nat) = 17 + 1 ∧ (1 : Nat) = 0 ∧ (0 : Nat) = 0)) := by
  have := counters_invariant.2 ⟨false, none, none, true, 3⟩ ⟨17, 0, 0⟩
    ⟨10, some Result.Defeat, false, false, false, AIAction.ok, true, none⟩
    [Event.observe 10, Event.prepareStep, Event.restartGame,
      Event.onReset (some Result.Defeat), Event.clearGameResult]
    ⟨0, 1, 0⟩ rfl
  simpa using this

/-- The hook phase never calls `on_reset`. -/
lemma hookPhase_no_onReset (cfg : Config) (s : LoopState) (inp : StepInput)
    (r : Option Result) : Event.onReset r ∉ (hookPhase cfg s inp).1 := by
  rcases cfg with ⟨rt, stl, gtl, rs, nr⟩
  rcases inp with ⟨gl, r1, ue, ee, er, act, ing, r2⟩
  cases rt <;> cases er <;> cases act <;> cases ing <;>
    rcases stl with _ | l <;> rcases r2 with _ | r2 <;>
    simp_all [hookPhase, afterHook]

/-- No loop iteration ever calls `on_reset(None)`: the only `on_reset`
call inside the loop is in the reset branch and passes the just-finished
result. -/
lemma stepBody_no_onReset_none (cfg : Config) (s : LoopState) (inp : StepInput) :
    Event.onReset none ∉ (stepBody cfg s inp).1 := by
  by_cases h1 : timeExceeded cfg.game_time_limit inp.game_loop
  · simp [stepBody, h1]
  · by_cases h2 : terminalCheck inp
    · by_cases h3 : cfg.reset ∧ s.run + 1 < cfg.num_runs <;>
        simp [stepBody, h1, h2, h3]
    · simp [stepBody, h1, h2]
      exact hookPhase_no_onReset cfg s inp none

/-- The loop never calls `on_reset(None)` no matter how many iterations
run. -/
lemma runLoop_no_onReset_none (cfg : Config) (s : LoopState)
    (inputs : List StepInput) :
    Event.onReset none ∉ (runLoop cfg s inputs).1 := by
  induction inputs generalizing s with
  | nil => simp [runLoop]
  | cons inp rest ih =>
    have hs := stepBody_no_onReset_none cfg s inp
    rcases h : stepBody cfg s inp with ⟨evs, r⟩
    have hevs : Event.onReset none ∉ evs := by rw [h] at hs; exact hs
    cases r <;> simp [runLoop, h, hevs, ih]

/-- Claim C9: `_play_game_ai` calls `on_reset(None)` exactly once, at
match start — after `_prepare_start` and `on_start`, before the first
observation of the first episode — and every `on_reset` issued inside
the loop (after a mid-match reset) carries the just-finished result,
never `None`. -/
theorem initial_reset_call (cfg : Config) (inputs : List StepInput) :
    (playGameAI cfg inputs).1 =
      [Event.getGameData, Event.getGameInfo, Event.prepareStart, Event.onStart,
        Event.onReset none] ++ (runLoop cfg initState inputs).1 ∧
    Event.onReset none ∉ (runLoop cfg initState inputs).1 ∧
    List.count (Event.onReset none) (playGameAI cfg inputs).1 = 1 ∧
    ∀ gl,
      Event.observe gl ∉
        [Event.getGameData, Event.getGameInfo, Event.prepareStart, Event.onStart,
          Event.onReset none] := by
  refine ⟨rfl, runLoop_no_onReset_none cfg initState inputs, ?_, by simp⟩
  have h := runLoop_no_onReset_none cfg initState inputs
  simp [playGameAI, List.count_cons, List.count_eq_zero.mpr h]

/-- Claim C10: in non-realtime mode, when the client reports it is no
longer in game after the AI hook and no engine-reported result is
present, `_play_game_ai` crashes with an uncaught error from indexing
the absent result mapping; when a result for the player is present, the
episode resolves with `on_end` on that result and returns. -/
theorem leave_without_result_crashes (cfg : Config) (s : LoopState)
    (inp : StepInput)
    (hrt : cfg.realtime = false)
    (hT : timeExceeded cfg.game_time_limit inp.game_loop = false)
    (hterm : terminalCheck inp = false)
    (hev : inp.events_raise = false) (hact : inp.action ≠ AIAction.raises)
    (hin : inp.in_game = false) :
    (inp.res2 = none → (stepBody cfg s inp).2 = StepResult.crash) ∧
    ∀ r, inp.res2 = some r →
      (stepBody cfg s inp).2 = StepResult.halt s.num_wins ∧
      Event.onEnd r ∈ (stepBody cfg s inp).1 := by
  refine ⟨fun h2 => ?_, fun r h2 => ⟨?_, ?_⟩⟩ <;>
    cases hact' : inp.action <;>
    first
      | exact absurd hact' hact
      | (rcases hstl : cfg.step_time_limit with _ | l <;>
          simp [stepBody, hookPhase, afterHook, hT, hterm, hev, hrt, hin,
            hact', hstl, h2])

/-- Witness for C10: a concrete left-game iteration with
`client._game_result` absent crashes. -/
theorem leave_without_result_crashes_witness :
    (stepBody ⟨false, none, none, false, 1⟩ initState
      ⟨5, none, false, false, false, AIAction.ok, false, none⟩).2 =
      StepResult.crash :=
  (leave_without_result_crashes ⟨false, none, none, false, 1⟩ initState
      ⟨5, none, false, false, false, AIAction.ok, false, none⟩
      rfl rfl rfl rfl (by decide) rfl).1 rfl

/-- The hook phase fetches no observation. -/
lemma hookPhase_filter_observe (cfg : Config) (s : LoopState) (inp : StepInput) :
    List.filter Event.isObserve (hookPhase cfg s inp).1 = [] := by
  rcases cfg with ⟨rt, stl, gtl, rs, nr⟩
  rcases inp with ⟨gl, r1, ue, ee, er, act, ing, r2⟩
  cases rt <;> cases er <;> cases act <;> cases ing <;>
    rcases stl with _ | l <;> rcases r2 with _ | r2 <;>
    simp_all [hookPhase, afterHook, Event.isObserve]

/-- Every iteration fetches exactly one observation. -/
lemma stepBody_numIters (cfg : Config) (s : LoopState) (inp : StepInput) :
    numIters (stepBody cfg s inp).1 = 1 := by
  by_cases h1 : timeExceeded cfg.game_time_limit inp.game_loop
  · simp [stepBody, h1, numIters, Event.isObserve]
  · by_cases h2 : terminalCheck inp
    · by_cases h3 : cfg.reset ∧ s.run + 1 < cfg.num_runs <;>
        simp [stepBody, h1, h2, h3, numIters, Event.isObserve]
    · simp [stepBody, h1, h2, numIters, Event.isObserve, List.filter_append,
        hookPhase_filter_observe]

/-- A continuing iteration adds exactly `winIncr` to `num_wins`. -/
lemma stepBody_cont_wins (cfg : Config) (s : LoopState) (inp : StepInput)
    (s' : LoopState) (h : (stepBody cfg s inp).2 = StepResult.cont s') :
    s'.num_wins = s.num_wins + winIncr cfg inp := by
  by_cases h1 : timeExceeded cfg.game_time_limit inp.game_loop
  · simp [stepBody, h1] at h
  · by_cases h2 : terminalCheck inp
    · by_cases h3 : cfg.reset ∧ s.run + 1 < cfg.num_runs
      · simp [stepBody, h1, h2, h3] at h
        simp [← h, winIncr, h1, h2, winFlag, resolveRes_eq_spec]
      · simp [stepBody, h1, h2, h3] at h
    · have h' : (hookPhase cfg s inp).2 = StepResult.cont s' := by
        simpa [stepBody, h1, h2] using h
      rw [hookPhase_cont cfg s inp s' h']
      simp [winIncr, h2]

/-- A returning iteration returns the entry `num_wins` plus exactly
`winIncr`. -/
lemma stepBody_halt_wins (cfg : Config) (s : LoopState) (inp : StepInput)
    (nw : Nat) (h : (stepBody cfg s inp).2 = StepResult.halt nw) :
    nw = s.num_wins + winIncr cfg inp := by
  by_cases h1 : timeExceeded cfg.game_time_limit inp.game_loop
  · simp [stepBody, h1] at h
    simp [← h, winIncr, h1]
  · by_cases h2 : terminalCheck inp
    · by_cases h3 : cfg.reset ∧ s.run + 1 < cfg.num_runs
      · simp [stepBody, h1, h2, h3] at h
      · simp [stepBody, h1, h2, h3] at h
        simp [← h, winIncr, h1, h2, winFlag, resolveRes_eq_spec]
    · have h' : (hookPhase cfg s inp).2 = StepResult.halt nw := by
        simpa [stepBody, h1, h2] using h
      rw [hookPhase_halt cfg s inp nw h']
      simp [winIncr, h2]

/-- Iteration counts add over concatenated traces. -/
lemma numIters_append (a b : List Event) :
    numIters (a ++ b) = numIters a + numIters b := by
  simp [numIters, List.filter_append]

/-- Counterexample to claim C4 as stated: an episode resolved through the
non-realtime left-game path with engine result `Victory` calls
`on_end(Result.Victory)` but does not increment `num_wins`.  Under reset
mode, this one-episode run resolves with result Victory (exactly one
`on_end`, with `Victory`) yet returns `num_wins = 0`, not 1. -/
theorem num_wins_ignores_leave_victory_cex :
    runLoop ⟨false, none, none, true, 5⟩ initState
        [⟨5, none, false, false, false, AIAction.ok, false, some Result.Victory⟩] =
      ([Event.observe 5, Event.prepareStep, Event.prepareFirstStep,
        Event.issueEvents, Event.onStep 0, Event.onEnd Result.Victory],
       Outcome.returned 0) ∧
    numOnEnd
      [Event.observe 5, Event.prepareStep, Event.prepareFirstStep,
        Event.issueEvents, Event.onStep 0, Event.onEnd Result.Victory] = 1 ∧
    Event.onEnd Result.Victory ∈
      [Event.observe 5, Event.prepareStep, Event.prepareFirstStep,
        Event.issueEvents, Event.onStep 0, Event.onEnd Result.Victory] ∧
    (0 : Nat) ≠ 1 := by
  exact ⟨rfl, by decide, by decide, by decide⟩

/-- Claim C4 as amended: the value returned by the loop equals the entry
`num_wins` plus the number of executed iterations that resolved an
episode through the terminal-detection branch with result Victory
(`winIncr`); episodes ended through the left-game path or the AI-error
path contribute nothing, even when their `on_end` receives Victory. -/
theorem num_wins_counts_terminal_victories (cfg : Config) (s : LoopState)
    (inputs : List StepInput) (tr : List Event) (nw : Nat)
    (h : runLoop cfg s inputs = (tr, Outcome.returned nw)) :
    nw = s.num_wins + ((inputs.take (numIters tr)).map (winIncr cfg)).sum := by
  induction inputs generalizing s tr nw with
  | nil =>
    simp [runLoop] at h
  | cons inp rest ih =>
    rcases hb : stepBody cfg s inp with ⟨evs, r⟩
    have hn1 : numIters evs = 1 := by
      have := stepBody_numIters cfg s inp
      rw [hb] at this
      exact this
    cases r with
    | cont s' =>
      have hw : s'.num_wins = s.num_wins + winIncr cfg inp :=
        stepBody_cont_wins cfg s inp s' (by rw [hb])
      rcases hrest : runLoop cfg s' rest with ⟨tr', out⟩
      simp only [runLoop, hb, hrest] at h
      obtain ⟨htr, hout⟩ := Prod.mk.injEq .. ▸ h
      have hihs := ih s' tr' nw (by rw [hrest, ← hout])
      subst htr
      rw [numIters_append, hn1]
      rw [show (1 + numIters tr') = numIters tr' + 1 from Nat.add_comm 1 _,
        List.take_succ_cons]
      simp only [List.map_cons, List.sum_cons]
      omega
    | halt nw' =>
      simp only [runLoop, hb] at h
      obtain ⟨htr, hout⟩ := Prod.mk.injEq .. ▸ h
      have hnw : nw' = s.num_wins + winIncr cfg inp :=
        stepBody_halt_wins cfg s inp nw' (by rw [hb])
      have : nw = nw' := by
        injection hout with h'
        exact h'.symm
      subst htr
      rw [hn1]
      simp [this, hnw]
    | crash =>
      simp only [runLoop, hb] at h
      exact absurd (Prod.mk.injEq .. ▸ h).2 (by simp)

/-- Witness for the amended C4: a two-episode reset-mode run — Victory by
enemy elimination, then engine-reported Defeat — returns 1, matching the
winIncr count over the executed iterations. -/
theorem num_wins_counts_terminal_victories_witness :
    (1 : Nat) =
      initState.num_wins +
        (([(⟨5, none, false, true, false, AIAction.ok, true, none⟩ : StepInput),
            ⟨6, some Result.Defeat, false, false, false, AIAction.ok, true,
              none⟩].take
            (numIters
              [Event.observe 5, Event.prepareStep, Event.restartGame,
                Event.onReset (some Result.Victory), Event.clearGameResult,
                Event.observe 6, Event.prepareStep,
                Event.onEnd Result.Defeat])).map
          (winIncr ⟨false, none, none, true, 2⟩)).sum :=
  num_wins_counts_terminal_victories ⟨false, none, none, true, 2⟩ initState
    [⟨5, none, false, true, false, AIAction.ok, true, none⟩,
      ⟨6, some Result.Defeat, false, false, false, AIAction.ok, true, none⟩]
    [Event.observe 5, Event.prepareStep, Event.restartGame,
      Event.onReset (some Result.Victory), Event.clearGameResult,
      Event.observe 6, Event.prepareStep, Event.onEnd Result.Defeat]
    1 rfl

/-- Claim C8: in `_host_game` and `_join_game`, whenever the connection
closes during play, replay save, leave or quit (the `try` block raises
`ConnectionAlreadyClosed`), the match returns the indeterminate outcome
`None`; and `ConnectionAlreadyClosed` is never propagated to the caller
under any collaborator behaviour. -/
theorem conn_closed_yields_none (α : Type) (saveReplayAs : Bool)
    (env : OrchEnv α)
    (h : tryBlock saveReplayAs env = Except.error Exc.connClosed) :
    hostGame saveReplayAs env = Except.ok none ∧
    joinGame saveReplayAs env = Except.ok none ∧
    (∀ env' : OrchEnv α,
      hostGame saveReplayAs env' ≠ Except.error Exc.connClosed) ∧
    ∀ env' : OrchEnv α,
      joinGame saveReplayAs env' ≠ Except.error Exc.connClosed := by
  refine ⟨by simp [hostGame, h, catchConn], by simp [joinGame, h, catchConn],
    ?_, ?_⟩ <;>
  · intro env'
    rcases h' : tryBlock saveReplayAs env' with e | a
    · cases e <;> simp [hostGame, joinGame, h', catchConn]
    · simp [hostGame, joinGame, h', catchConn]

/-- Witness for C8: the connection closes during `client.leave()` after a
successfully played match; both orchestrators report `None`. -/
theorem conn_closed_yields_none_witness :
    hostGame true
        (⟨Except.ok 3, Except.ok (), Except.error Exc.connClosed,
          Except.ok ()⟩ : OrchEnv Nat) = Except.ok none ∧
    joinGame true
        (⟨Except.ok 3, Except.ok (), Except.error Exc.connClosed,
          Except.ok ()⟩ : OrchEnv Nat) = Except.ok none :=
  ⟨(conn_closed_yields_none Nat true
      ⟨Except.ok 3, Except.ok (), Except.error Exc.connClosed, Except.ok ()⟩
      rfl).1,
   (conn_closed_yields_none Nat true
      ⟨Except.ok 3, Except.ok (), Except.error Exc.connClosed, Except.ok ()⟩
      rfl).2.1⟩

end SC2
